import Mathlib

/-!
The mcpmongo server: the `execute_mongo_command` adapter and the start-up sequence of
`main`.

A shallow embedding of `src/main.go`.

* The handler registered with `s.AddTool` is the function `executeMongoCommand`.
  The three driver entry points it calls (`bson.UnmarshalExtJSON`,
  `db.RunCommand(...).Decode`, `bson.MarshalExtJSON`) belong to the MongoDB driver, so
  they are fields of a `Driver` record, and every call the handler makes is
  recorded, with its arguments, in the `calls` list of the outcome.
* `main` is the function `main` over a `Runtime` record (environment, connection,
  ping, transport loop).  `log.Fatal`/`log.Fatalf` end the process through
  `os.Exit(1)`, which does not run deferred functions; a normal return runs the
  deferred functions last-in first-out.
* `log.Printf`/`log.Println` lines only write to the log and are left out.
-/

namespace McpMongo

/-! ## Go values -/

/-- A non-nil Go `error`, identified by the text its `Error()` method returns.
A nil `error` is `none` of `Option GoError`. -/
structure GoError where
  msg : String
deriving DecidableEq

/-- The method `Error()` of a Go error; `%v` of `fmt.Sprintf` prints exactly this text. -/
def GoError.Error (e : GoError) : String := e.msg

/-- A value of type `interface{}` as found in the argument map of a tool request
(decoded JSON): nil, bool, float64, string, slice, map. -/
inductive GoAny where
  | nil
  | bool (b : Bool)
  | float64 (bits : Nat)
  | string (s : String)
  | slice (xs : List GoAny)
  | map (kvs : List (String × GoAny))

/-- Go map indexing `m[key]` on a `map[string]interface{}`: a nil map (`none`) and a
missing key both give the zero value, the nil interface. -/
def mapIndex (m : Option (List (String × GoAny))) (key : String) : GoAny :=
  match m with
  | none => GoAny.nil
  | some kvs =>
    match kvs.lookup key with
    | some v => v
    | none => GoAny.nil

/-- The two-result type assertion `v, ok := x.(string)`: the string and `true` when the
dynamic type is string, otherwise the zero value and `false`. -/
def assertString : GoAny → String × Bool
  | GoAny.string s => (s, true)
  | _ => ("", false)

/-- A `context.Context`: the background context, a context derived from a parent with a
timeout (in nanoseconds), or a context handed in by the transport for one call. -/
inductive Context where
  | Background
  | WithTimeout (parent : Context) (nanos : Nat)
  | Caller (id : Nat)
deriving DecidableEq

/-! ## BSON documents -/

/-- A BSON value (the cases the specification names). -/
inductive BsonValue where
  | Double (bits : Nat)
  | String (s : String)
  | Document (d : List (String × BsonValue))
  | Array (xs : List BsonValue)
  | Binary (subtype : Nat) (data : List Nat)
  | Boolean (b : Bool)
  | DateTime (millis : Int)
  | Null
  | Int32 (n : Int)
  | Int64 (n : Int)

/-- The Go type `bson.D`: an ordered list of key/value elements. -/
abbrev D := List (String × BsonValue)

/-- The Go type `bson.M`, `map[string]interface{}`, held as its entries. -/
structure M where
  entries : List (String × BsonValue)

/-! ## MCP requests and results -/

/-- The field `Params` of `mcp.CallToolRequest`. -/
structure CallToolParams where
  Name : String
  Arguments : Option (List (String × GoAny))

/-- The Go type `mcp.CallToolRequest`. -/
structure CallToolRequest where
  Method : String
  Params : CallToolParams

/-- The Go type `mcp.TextContent`; `Type_` is its field `Type`. -/
structure TextContent where
  Type_ : String
  Text : String
deriving DecidableEq

/-- The Go type `mcp.CallToolResult`. -/
structure CallToolResult where
  Content : List TextContent
  IsError : Bool
deriving DecidableEq

/-- The constructor `mcp.NewToolResultError`: one text content, `IsError` set. -/
def NewToolResultError (text : String) : CallToolResult :=
  ⟨[⟨"text", text⟩], true⟩

/-- The constructor `mcp.NewToolResultText`: one text content, `IsError` not set. -/
def NewToolResultText (text : String) : CallToolResult :=
  ⟨[⟨"text", text⟩], false⟩

/-! ## The driver -/

/-- A connected `*mongo.Client`, identified by the URI it was created from. -/
structure Client where
  uri : String
deriving DecidableEq

/-- A `*mongo.Database` handle: the client it came from and the database name. -/
structure Database where
  client : Client
  name : String
deriving DecidableEq

/-- The method `client.Database(name)`. -/
def Client.Database (c : Client) (name : String) : Database := ⟨c, name⟩

/-- The `*mongo.SingleResult` returned by `RunCommand`: the error of the round trip, if
any, and the raw reply. -/
structure SingleResult where
  err : Option GoError
  rdr : D

/-- The driver functions the handler calls.  `UnmarshalExtJSON data canonical` stands for
`bson.UnmarshalExtJSON(data, canonical, &doc)`, `MarshalExtJSON val canonical escapeHTML`
for `bson.MarshalExtJSON(val, canonical, escapeHTML)`; byte slices are held as text. -/
structure Driver where
  UnmarshalExtJSON : String → Bool → Except GoError D
  RunCommand : Database → Context → D → SingleResult
  Decode : SingleResult → Except GoError M
  MarshalExtJSON : M → Bool → Bool → Except GoError String

/-- One call made by the handler to the driver, with the arguments it was given. -/
inductive Call where
  | UnmarshalExtJSON (data : String) (canonical : Bool)
  | RunCommand (db : Database) (ctx : Context) (cmd : D)
  | Decode (sr : SingleResult)
  | MarshalExtJSON (val : M) (canonical : Bool) (escapeHTML : Bool)

/-- True exactly on the calls that reach the database. -/
def Call.isRunCommand : Call → Bool
  | Call.RunCommand _ _ _ => true
  | _ => false

/-- True exactly on the calls to the extended-JSON parser. -/
def Call.isUnmarshal : Call → Bool
  | Call.UnmarshalExtJSON _ _ => true
  | _ => false

/-- What one invocation of the handler gives back: the `*mcp.CallToolResult` (`none` is
the nil pointer), the Go `error` (`none` is nil), and the driver calls made, in order. -/
structure HandlerReturn where
  result : Option CallToolResult
  err : Option GoError
  calls : List Call

/-! ## The handler of `execute_mongo_command` (main.go, lines 82-116) -/

/-- The closure passed to `s.AddTool`; `db` is the captured database handle. -/
def executeMongoCommand (drv : Driver) (db : Database) (toolCtx : Context)
    (request : CallToolRequest) : HandlerReturn :=
  let (commandStr, ok) := assertString (mapIndex request.Params.Arguments "command")
  if !ok then
    ⟨some (NewToolResultError "Параметр 'command' должен быть строкой."), none, []⟩
  else
    let c1 := [Call.UnmarshalExtJSON commandStr true]
    match drv.UnmarshalExtJSON commandStr true with
    | Except.error err =>
      ⟨some (NewToolResultError ("Ошибка разбора JSON команды: " ++ err.Error)), none, c1⟩
    | Except.ok commandDoc =>
      let sr := drv.RunCommand db toolCtx commandDoc
      let c2 := c1 ++ [Call.RunCommand db toolCtx commandDoc, Call.Decode sr]
      match drv.Decode sr with
      | Except.error err =>
        ⟨some (NewToolResultError ("Ошибка выполнения команды MongoDB: " ++ err.Error)),
          none, c2⟩
      | Except.ok result =>
        let c3 := c2 ++ [Call.MarshalExtJSON result true true]
        match drv.MarshalExtJSON result true true with
        | Except.error err =>
          ⟨some (NewToolResultError
            ("Ошибка преобразования результата в JSON: " ++ err.Error)), none, c3⟩
        | Except.ok resultJSON =>
          let responseText := resultJSON
          ⟨some (NewToolResultText responseText), none, c3⟩

/-! ## `main` (main.go, lines 24-124) -/

/-- The `*server.MCPServer`: name, version, and the registered tools, each with the
database handle captured by its handler. -/
structure MCPServer where
  name : String
  version : String
  tools : List (String × Database)
deriving DecidableEq

/-- The constructor `server.NewMCPServer`. -/
def NewMCPServer (name version : String) : MCPServer := ⟨name, version, []⟩

/-- The method `s.AddTool(tool, handler)`; the handler is `executeMongoCommand` closed
over `db`. -/
def MCPServer.AddTool (s : MCPServer) (toolName : String) (db : Database) : MCPServer :=
  ⟨s.name, s.version, s.tools ++ [(toolName, db)]⟩

/-- What `main` calls outside the program: `os.Getenv` (the empty string for an unset
variable), `mongo.Connect(ctx, options.Client().ApplyURI(uri))`, `client.Ping`,
`server.ServeStdio` (its return value once the transport loop ends) and
`client.Disconnect`. -/
structure Runtime where
  Getenv : String → String
  Connect : Context → String → Except GoError Client
  Ping : Client → Context → Option GoError
  ServeStdio : MCPServer → Option GoError
  Disconnect : Client → Context → Option GoError

/-- One externally visible step of `main`, with its arguments. -/
inductive Event where
  | Getenv (key : String)
  | Connect (ctx : Context) (uri : String)
  | Ping (client : Client) (ctx : Context)
  | AddTool (toolName : String) (db : Database)
  | ServeStdio (s : MCPServer)
  | cancelPing
  | Disconnect (client : Client) (ctx : Context)
  | Exit (code : Nat)
deriving DecidableEq

/-- A function call registered with `defer`. -/
inductive Deferred where
  | Disconnect (client : Client)
  | cancelPing

/-- How the process ended: the steps taken, in order, and the exit code. -/
structure ProcessEnd where
  events : List Event
  exitCode : Nat

/-- The calls `log.Fatal` and `log.Fatalf`: print, then `os.Exit(1)`.  The program
terminates immediately; deferred functions are not run. -/
def logFatal (events : List Event) : ProcessEnd :=
  ⟨events ++ [Event.Exit 1], 1⟩

/-- Return from `main`: the deferred calls run, most recent first (the head of the
list); the deferred disconnect closure (lines 49-53) calls `log.Fatalf` when
`Disconnect` fails.  After the last one the process exits with code 0. -/
def runDeferred (rt : Runtime) : List Deferred → List Event → ProcessEnd
  | [], events => ⟨events, 0⟩
  | Deferred.cancelPing :: rest, events => runDeferred rt rest (events ++ [Event.cancelPing])
  | Deferred.Disconnect client :: rest, events =>
    let events := events ++ [Event.Disconnect client Context.Background]
    match rt.Disconnect client Context.Background with
    | some _ => logFatal events
    | none => runDeferred rt rest events

/-- The Go constant `time.Second`, in nanoseconds. -/
def Second : Nat := 1000000000

/-- The value left in the global `serverPort` (lines 38-42); nothing reads it later. -/
def serverPort (rt : Runtime) : String :=
  let serverPort := rt.Getenv "MCPMONGO_SERVER_PORT"
  if serverPort = "" then "26275" else serverPort

/-- The function `main`. -/
def main (rt : Runtime) : ProcessEnd :=
  let mongoURI := rt.Getenv "MCPMONGO_MONGO_URI"
  let e1 := [Event.Getenv "MCPMONGO_MONGO_URI"]
  if mongoURI = "" then logFatal e1
  else
    let databaseName := rt.Getenv "MCPMONGO_DATABASE_NAME"
    let e2 := e1 ++ [Event.Getenv "MCPMONGO_DATABASE_NAME"]
    if databaseName = "" then logFatal e2
    else
      let e3 := e2 ++ [Event.Getenv "MCPMONGO_SERVER_PORT"]
      let e4 := e3 ++ [Event.Connect Context.Background mongoURI]
      match rt.Connect Context.Background mongoURI with
      | Except.error _ => logFatal e4
      | Except.ok client =>
        let deferred := [Deferred.Disconnect client]
        let ctxPing := Context.WithTimeout Context.Background (2 * Second)
        let deferred := Deferred.cancelPing :: deferred
        let e5 := e4 ++ [Event.Ping client ctxPing]
        match rt.Ping client ctxPing with
        | some _ => logFatal e5
        | none =>
          let db := client.Database databaseName
          let s := NewMCPServer "MongoDB MCP Server" "0.1.0"
          let s := s.AddTool "execute_mongo_command" db
          let e6 := e5 ++ [Event.AddTool "execute_mongo_command" db]
          let e7 := e6 ++ [Event.ServeStdio s]
          match rt.ServeStdio s with
          | some _ => logFatal e7
          | none => runDeferred rt deferred e7

/-! ## Sample environments

Small concrete environments on which the definitions above are evaluated. -/

/-- The bits of the float64 value 1.0. -/
def doubleOne : Nat := 0x3FF0000000000000

/-- A driver answering a handful of requests the way a reachable server would: `ping`
succeeds with `ok: 1.0`, any other command is rejected, and the context `Caller 0`
is one that is already canceled. -/
def sampleDriver : Driver where
  UnmarshalExtJSON := fun data _ =>
    if data = "\x7b\"ping\": 1\x7d" then Except.ok [("ping", BsonValue.Int32 1)]
    else if data = "\x7b\"nosuch\": 1\x7d" then Except.ok [("nosuch", BsonValue.Int32 1)]
    else Except.error ⟨"invalid JSON input"⟩
  RunCommand := fun _ ctx cmd =>
    if ctx = Context.Caller 0 then ⟨some ⟨"context canceled"⟩, []⟩
    else
      match cmd.map Prod.fst with
      | ["ping"] => ⟨none, [("ok", BsonValue.Double doubleOne)]⟩
      | _ => ⟨some ⟨"(CommandNotFound) no such command"⟩, []⟩
  Decode := fun sr =>
    match sr.err with
    | some e => Except.error e
    | none => Except.ok ⟨sr.rdr⟩
  MarshalExtJSON := fun val canonical _ =>
    match val.entries with
    | [("ok", BsonValue.Double bits)] =>
      if bits = doubleOne then
        if canonical then Except.ok "\x7b\"ok\":\x7b\"$numberDouble\":\"1.0\"\x7d\x7d"
        else Except.ok "\x7b\"ok\":1.0\x7d"
      else Except.error ⟨"value outside the sample"⟩
    | _ => Except.error ⟨"value outside the sample"⟩

/-- The database handle used in the samples. -/
def sampleDb : Database := ⟨⟨"mongodb://localhost:27017"⟩, "test"⟩

/-- A request carrying the given argument map. -/
def requestWith (args : Option (List (String × GoAny))) : CallToolRequest :=
  ⟨"tools/call", ⟨"execute_mongo_command", args⟩⟩

/-- A runtime with both required variables set, in which connecting succeeds; the
results of the ping, of the transport loop and of the disconnect are given. -/
def sampleRuntime (ping serve disconnect : Option GoError) : Runtime where
  Getenv := fun key =>
    if key = "MCPMONGO_MONGO_URI" then "mongodb://localhost:27017"
    else if key = "MCPMONGO_DATABASE_NAME" then "test"
    else ""
  Connect := fun _ uri => Except.ok ⟨uri⟩
  Ping := fun _ _ => ping
  ServeStdio := fun _ => serve
  Disconnect := fun _ _ => disconnect

/-- A runtime in which no variable is set. -/
def emptyRuntime : Runtime where
  Getenv := fun _ => ""
  Connect := fun _ uri => Except.ok ⟨uri⟩
  Ping := fun _ _ => none
  ServeStdio := fun _ => none
  Disconnect := fun _ _ => none

/-! ## Vocabulary of the specification -/

/-- The argument "command" is absent: the argument map is nil, or it has no entry
under that key. -/
def commandAbsent (request : CallToolRequest) : Prop :=
  match request.Params.Arguments with
  | none => True
  | some kvs => ∀ v, ("command", v) ∉ kvs

/-- The argument "command" is present and its value is not a string. -/
def commandNotString (request : CallToolRequest) : Prop :=
  ∃ kvs v, request.Params.Arguments = some kvs ∧ kvs.lookup "command" = some v ∧
    ∀ s, v ≠ GoAny.string s

/-- The argument "command" is present and is the string `s`. -/
def commandIs (request : CallToolRequest) (s : String) : Prop :=
  ∃ kvs, request.Params.Arguments = some kvs ∧
    kvs.lookup "command" = some (GoAny.string s)

/-- The four per-call failures of the error taxonomy: input, parse, execution,
serialization. -/
inductive PerCallFailure (drv : Driver) (db : Database) (toolCtx : Context)
    (request : CallToolRequest) : Prop where
  | input (h : commandAbsent request ∨ commandNotString request)
  | parse (s : String) (e : GoError) (hcmd : commandIs request s)
      (hparse : drv.UnmarshalExtJSON s true = Except.error e)
  | execution (s : String) (cmd : D) (e : GoError) (hcmd : commandIs request s)
      (hparse : drv.UnmarshalExtJSON s true = Except.ok cmd)
      (hrun : drv.Decode (drv.RunCommand db toolCtx cmd) = Except.error e)
  | serialization (s : String) (cmd : D) (reply : M) (e : GoError)
      (hcmd : commandIs request s)
      (hparse : drv.UnmarshalExtJSON s true = Except.ok cmd)
      (hrun : drv.Decode (drv.RunCommand db toolCtx cmd) = Except.ok reply)
      (hser : drv.MarshalExtJSON reply true true = Except.error e)

/-- The call succeeds with response text `text`: the argument is a string that parses,
the database call gives a reply, and the reply serializes to `text`. -/
def Succeeds (drv : Driver) (db : Database) (toolCtx : Context)
    (request : CallToolRequest) (text : String) : Prop :=
  ∃ s cmd reply, commandIs request s ∧
    drv.UnmarshalExtJSON s true = Except.ok cmd ∧
    drv.Decode (drv.RunCommand db toolCtx cmd) = Except.ok reply ∧
    drv.MarshalExtJSON reply true true = Except.ok text

/-- The canonical flag of a call to the serializer; `none` on any other call. -/
def Call.marshalCanonical : Call → Option Bool
  | Call.MarshalExtJSON _ canonical _ => some canonical
  | _ => none

/-- Start-up succeeded: both required variables are non-empty, connecting succeeded, and
the ping under the 2-second timeout succeeded. -/
def StartupOk (rt : Runtime) : Prop :=
  rt.Getenv "MCPMONGO_MONGO_URI" ≠ "" ∧ rt.Getenv "MCPMONGO_DATABASE_NAME" ≠ "" ∧
  ∃ client,
    rt.Connect Context.Background (rt.Getenv "MCPMONGO_MONGO_URI") = Except.ok client ∧
    rt.Ping client (Context.WithTimeout Context.Background 2000000000) = none

/-- The tool was registered during the run. -/
def Registered (p : ProcessEnd) : Prop := ∃ toolName db, Event.AddTool toolName db ∈ p.events

/-- The stdio transport loop was started during the run. -/
def Served (p : ProcessEnd) : Prop := ∃ s, Event.ServeStdio s ∈ p.events

/-- A connection attempt was made during the run. -/
def ConnectAttempted (p : ProcessEnd) : Prop := ∃ ctx uri, Event.Connect ctx uri ∈ p.events

/-- The handle was disconnected during the run. -/
def Disconnected (p : ProcessEnd) : Prop := ∃ client ctx, Event.Disconnect client ctx ∈ p.events

/-- True exactly on the calls of `client.Disconnect`. -/
def Event.isDisconnect : Event → Bool
  | Event.Disconnect _ _ => true
  | _ => false

/-- The request whose "command" argument is the text `{"ping": 1}`. -/
def pingRequest : CallToolRequest :=
  requestWith (some [("command", GoAny.string "\x7b\"ping\": 1\x7d")])

/-- The steps of `main` up to and including the connection attempt. -/
def eventsToConnect (uri : String) : List Event :=
  [Event.Getenv "MCPMONGO_MONGO_URI", Event.Getenv "MCPMONGO_DATABASE_NAME",
    Event.Getenv "MCPMONGO_SERVER_PORT", Event.Connect Context.Background uri]

/-- The steps of `main` up to and including the start-up ping. -/
def eventsToPing (uri : String) (client : Client) : List Event :=
  eventsToConnect uri ++
    [Event.Ping client (Context.WithTimeout Context.Background 2000000000)]

/-- The server as `main` hands it to `ServeStdio`. -/
def registeredServer (client : Client) (databaseName : String) : MCPServer :=
  ⟨"MongoDB MCP Server", "0.1.0", [("execute_mongo_command", ⟨client, databaseName⟩)]⟩

/-- The steps of `main` up to and including the start of the transport loop. -/
def eventsToServe (uri : String) (client : Client) (databaseName : String) : List Event :=
  eventsToPing uri client ++
    [Event.AddTool "execute_mongo_command" ⟨client, databaseName⟩,
      Event.ServeStdio (registeredServer client databaseName)]

/-- The seven ways `main` can run, each with the full list of steps and the exit code. -/
inductive MainRun (rt : Runtime) : ProcessEnd → Prop where
  | noURI (huri : rt.Getenv "MCPMONGO_MONGO_URI" = "") :
      MainRun rt ⟨[Event.Getenv "MCPMONGO_MONGO_URI", Event.Exit 1], 1⟩
  | noDatabaseName (huri : rt.Getenv "MCPMONGO_MONGO_URI" ≠ "")
      (hdb : rt.Getenv "MCPMONGO_DATABASE_NAME" = "") :
      MainRun rt ⟨[Event.Getenv "MCPMONGO_MONGO_URI", Event.Getenv "MCPMONGO_DATABASE_NAME",
        Event.Exit 1], 1⟩
  | connectFailed (huri : rt.Getenv "MCPMONGO_MONGO_URI" ≠ "")
      (hdb : rt.Getenv "MCPMONGO_DATABASE_NAME" ≠ "") (e : GoError)
      (hconn : rt.Connect Context.Background (rt.Getenv "MCPMONGO_MONGO_URI")
        = Except.error e) :
      MainRun rt ⟨eventsToConnect (rt.Getenv "MCPMONGO_MONGO_URI") ++ [Event.Exit 1], 1⟩
  | pingFailed (huri : rt.Getenv "MCPMONGO_MONGO_URI" ≠ "")
      (hdb : rt.Getenv "MCPMONGO_DATABASE_NAME" ≠ "") (client : Client) (e : GoError)
      (hconn : rt.Connect Context.Background (rt.Getenv "MCPMONGO_MONGO_URI")
        = Except.ok client)
      (hping : rt.Ping client (Context.WithTimeout Context.Background 2000000000) = some e) :
      MainRun rt ⟨eventsToPing (rt.Getenv "MCPMONGO_MONGO_URI") client ++ [Event.Exit 1], 1⟩
  | serveFailed (huri : rt.Getenv "MCPMONGO_MONGO_URI" ≠ "")
      (hdb : rt.Getenv "MCPMONGO_DATABASE_NAME" ≠ "") (client : Client) (e : GoError)
      (hconn : rt.Connect Context.Background (rt.Getenv "MCPMONGO_MONGO_URI")
        = Except.ok client)
      (hping : rt.Ping client (Context.WithTimeout Context.Background 2000000000) = none)
      (hserve : rt.ServeStdio
        (registeredServer client (rt.Getenv "MCPMONGO_DATABASE_NAME")) = some e) :
      MainRun rt ⟨eventsToServe (rt.Getenv "MCPMONGO_MONGO_URI") client
        (rt.Getenv "MCPMONGO_DATABASE_NAME") ++ [Event.Exit 1], 1⟩
  | disconnectFailed (huri : rt.Getenv "MCPMONGO_MONGO_URI" ≠ "")
      (hdb : rt.Getenv "MCPMONGO_DATABASE_NAME" ≠ "") (client : Client) (e : GoError)
      (hconn : rt.Connect Context.Background (rt.Getenv "MCPMONGO_MONGO_URI")
        = Except.ok client)
      (hping : rt.Ping client (Context.WithTimeout Context.Background 2000000000) = none)
      (hserve : rt.ServeStdio
        (registeredServer client (rt.Getenv "MCPMONGO_DATABASE_NAME")) = none)
      (hdisc : rt.Disconnect client Context.Background = some e) :
      MainRun rt ⟨eventsToServe (rt.Getenv "MCPMONGO_MONGO_URI") client
        (rt.Getenv "MCPMONGO_DATABASE_NAME") ++
          [Event.cancelPing, Event.Disconnect client Context.Background, Event.Exit 1], 1⟩
  | returned (huri : rt.Getenv "MCPMONGO_MONGO_URI" ≠ "")
      (hdb : rt.Getenv "MCPMONGO_DATABASE_NAME" ≠ "") (client : Client)
      (hconn : rt.Connect Context.Background (rt.Getenv "MCPMONGO_MONGO_URI")
        = Except.ok client)
      (hping : rt.Ping client (Context.WithTimeout Context.Background 2000000000) = none)
      (hserve : rt.ServeStdio
        (registeredServer client (rt.Getenv "MCPMONGO_DATABASE_NAME")) = none)
      (hdisc : rt.Disconnect client Context.Background = none) :
      MainRun rt ⟨eventsToServe (rt.Getenv "MCPMONGO_MONGO_URI") client
        (rt.Getenv "MCPMONGO_DATABASE_NAME") ++
          [Event.cancelPing, Event.Disconnect client Context.Background], 0⟩

/-! ## Lemmas on the argument lookup -/

theorem lookup_none_of_no_entry (kvs : List (String × GoAny)) (key : String)
    (h : ∀ v, (key, v) ∉ kvs) : kvs.lookup key = none := by
  induction kvs with
  | nil => rfl
  | cons kv rest ih =>
    obtain ⟨k, v⟩ := kv
    have hk : key ≠ k := by
      intro hk
      exact h v (by simp [hk])
    have hrest : ∀ w, (key, w) ∉ rest := fun w hw => h w (List.mem_cons_of_mem _ hw)
    have hne : (key == k) = false := by simpa using hk
    simp [List.lookup, hne, ih hrest]

theorem no_entry_of_lookup_none (kvs : List (String × GoAny)) (key : String)
    (h : kvs.lookup key = none) : ∀ v, (key, v) ∉ kvs := by
  induction kvs with
  | nil => simp
  | cons kv rest ih =>
    obtain ⟨k, w⟩ := kv
    intro v hv
    by_cases hk : key = k
    · simp [List.lookup, ← hk] at h
    · have hne : (key == k) = false := by simpa using hk
      simp only [List.lookup, hne] at h
      rcases List.mem_cons.mp hv with h1 | h1
      · exact hk (by injection h1)
      · exact ih h v h1

theorem assert_fails_of_absent_or_not_string (request : CallToolRequest)
    (h : commandAbsent request ∨ commandNotString request) :
    (assertString (mapIndex request.Params.Arguments "command")).2 = false := by
  rcases h with h | ⟨kvs, v, hargs, hlook, hv⟩
  · unfold commandAbsent at h
    cases hargs : request.Params.Arguments with
    | none => simp [mapIndex, assertString]
    | some kvs =>
      rw [hargs] at h
      simp [mapIndex, lookup_none_of_no_entry kvs "command" h, assertString]
  · simp only [mapIndex, hargs, hlook]
    cases v with
    | string s => exact absurd rfl (hv s)
    | _ => rfl

theorem assert_of_commandIs (request : CallToolRequest) (s : String)
    (h : commandIs request s) :
    assertString (mapIndex request.Params.Arguments "command") = (s, true) := by
  obtain ⟨kvs, hargs, hlook⟩ := h
  simp [mapIndex, hargs, hlook, assertString]

/-- Every request either lacks a string "command" or carries one. -/
theorem absent_not_string_or_is (request : CallToolRequest) :
    (commandAbsent request ∨ commandNotString request) ∨ ∃ s, commandIs request s := by
  cases hargs : request.Params.Arguments with
  | none => exact Or.inl (Or.inl (by simp [commandAbsent, hargs]))
  | some kvs =>
    cases hlook : kvs.lookup "command" with
    | none =>
      refine Or.inl (Or.inl ?_)
      simp only [commandAbsent, hargs]
      exact no_entry_of_lookup_none kvs "command" hlook
    | some v =>
      cases v with
      | string s => exact Or.inr ⟨s, kvs, hargs, hlook⟩
      | nil => exact Or.inl (Or.inr ⟨kvs, _, hargs, hlook, fun s h => by cases h⟩)
      | bool b => exact Or.inl (Or.inr ⟨kvs, _, hargs, hlook, fun s h => by cases h⟩)
      | float64 b => exact Or.inl (Or.inr ⟨kvs, _, hargs, hlook, fun s h => by cases h⟩)
      | slice xs => exact Or.inl (Or.inr ⟨kvs, _, hargs, hlook, fun s h => by cases h⟩)
      | map m => exact Or.inl (Or.inr ⟨kvs, _, hargs, hlook, fun s h => by cases h⟩)

/-! ## The four ways through the handler -/

theorem handler_input_path (drv : Driver) (db : Database) (toolCtx : Context)
    (request : CallToolRequest) (h : commandAbsent request ∨ commandNotString request) :
    executeMongoCommand drv db toolCtx request
      = ⟨some (NewToolResultError "Параметр 'command' должен быть строкой."), none, []⟩ := by
  have hok := assert_fails_of_absent_or_not_string request h
  unfold executeMongoCommand
  cases hp : assertString (mapIndex request.Params.Arguments "command") with
  | mk commandStr ok =>
    rw [hp] at hok
    simp only at hok
    subst hok
    simp

theorem handler_parse_path (drv : Driver) (db : Database) (toolCtx : Context)
    (request : CallToolRequest) (s : String) (e : GoError) (hcmd : commandIs request s)
    (hparse : drv.UnmarshalExtJSON s true = Except.error e) :
    executeMongoCommand drv db toolCtx request
      = ⟨some (NewToolResultError ("Ошибка разбора JSON команды: " ++ e.Error)), none,
          [Call.UnmarshalExtJSON s true]⟩ := by
  unfold executeMongoCommand
  rw [assert_of_commandIs request s hcmd]
  simp [hparse]

theorem handler_execution_path (drv : Driver) (db : Database) (toolCtx : Context)
    (request : CallToolRequest) (s : String) (cmd : D) (e : GoError)
    (hcmd : commandIs request s)
    (hparse : drv.UnmarshalExtJSON s true = Except.ok cmd)
    (hrun : drv.Decode (drv.RunCommand db toolCtx cmd) = Except.error e) :
    executeMongoCommand drv db toolCtx request
      = ⟨some (NewToolResultError ("Ошибка выполнения команды MongoDB: " ++ e.Error)), none,
          [Call.UnmarshalExtJSON s true, Call.RunCommand db toolCtx cmd,
            Call.Decode (drv.RunCommand db toolCtx cmd)]⟩ := by
  unfold executeMongoCommand
  rw [assert_of_commandIs request s hcmd]
  simp [hparse, hrun]

theorem handler_serialization_path (drv : Driver) (db : Database) (toolCtx : Context)
    (request : CallToolRequest) (s : String) (cmd : D) (reply : M) (e : GoError)
    (hcmd : commandIs request s)
    (hparse : drv.UnmarshalExtJSON s true = Except.ok cmd)
    (hrun : drv.Decode (drv.RunCommand db toolCtx cmd) = Except.ok reply)
    (hser : drv.MarshalExtJSON reply true true = Except.error e) :
    executeMongoCommand drv db toolCtx request
      = ⟨some (NewToolResultError ("Ошибка преобразования результата в JSON: " ++ e.Error)),
          none,
          [Call.UnmarshalExtJSON s true, Call.RunCommand db toolCtx cmd,
            Call.Decode (drv.RunCommand db toolCtx cmd),
            Call.MarshalExtJSON reply true true]⟩ := by
  unfold executeMongoCommand
  rw [assert_of_commandIs request s hcmd]
  simp [hparse, hrun, hser]

theorem handler_success_path (drv : Driver) (db : Database) (toolCtx : Context)
    (request : CallToolRequest) (s : String) (cmd : D) (reply : M) (text : String)
    (hcmd : commandIs request s)
    (hparse : drv.UnmarshalExtJSON s true = Except.ok cmd)
    (hrun : drv.Decode (drv.RunCommand db toolCtx cmd) = Except.ok reply)
    (hser : drv.MarshalExtJSON reply true true = Except.ok text) :
    executeMongoCommand drv db toolCtx request
      = ⟨some (NewToolResultText text), none,
          [Call.UnmarshalExtJSON s true, Call.RunCommand db toolCtx cmd,
            Call.Decode (drv.RunCommand db toolCtx cmd),
            Call.MarshalExtJSON reply true true]⟩ := by
  unfold executeMongoCommand
  rw [assert_of_commandIs request s hcmd]
  simp [hparse, hrun, hser]

/-- Every invocation takes exactly one of the five paths. -/
theorem handler_paths (drv : Driver) (db : Database) (toolCtx : Context)
    (request : CallToolRequest) :
    PerCallFailure drv db toolCtx request ∨ ∃ text, Succeeds drv db toolCtx request text := by
  rcases absent_not_string_or_is request with h | ⟨s, hcmd⟩
  · exact Or.inl (PerCallFailure.input h)
  · cases hparse : drv.UnmarshalExtJSON s true with
    | error e => exact Or.inl (PerCallFailure.parse s e hcmd hparse)
    | ok cmd =>
      cases hrun : drv.Decode (drv.RunCommand db toolCtx cmd) with
      | error e => exact Or.inl (PerCallFailure.execution s cmd e hcmd hparse hrun)
      | ok reply =>
        cases hser : drv.MarshalExtJSON reply true true with
        | error e =>
          exact Or.inl (PerCallFailure.serialization s cmd reply e hcmd hparse hrun hser)
        | ok text => exact Or.inr ⟨text, s, cmd, reply, hcmd, hparse, hrun, hser⟩

/-- A per-call failure gives a tool-error result and a nil error. -/
theorem failure_gives_tool_error (drv : Driver) (db : Database) (toolCtx : Context)
    (request : CallToolRequest) (hfail : PerCallFailure drv db toolCtx request) :
    ∃ text, (executeMongoCommand drv db toolCtx request).result
        = some (NewToolResultError text) ∧
      (executeMongoCommand drv db toolCtx request).err = none := by
  cases hfail with
  | input h => exact ⟨_, by rw [handler_input_path drv db toolCtx request h]; exact ⟨rfl, rfl⟩⟩
  | parse s e hcmd hparse =>
    exact ⟨_, by
      rw [handler_parse_path drv db toolCtx request s e hcmd hparse]; exact ⟨rfl, rfl⟩⟩
  | execution s cmd e hcmd hparse hrun =>
    exact ⟨_, by
      rw [handler_execution_path drv db toolCtx request s cmd e hcmd hparse hrun]
      exact ⟨rfl, rfl⟩⟩
  | serialization s cmd reply e hcmd hparse hrun hser =>
    exact ⟨_, by
      rw [handler_serialization_path drv db toolCtx request s cmd reply e hcmd hparse hrun hser]
      exact ⟨rfl, rfl⟩⟩

/-! ## The ways through `main` -/

/-- The run of `main` is one of the seven listed runs. -/
theorem main_run (rt : Runtime) : MainRun rt (main rt) := by
  unfold main
  by_cases huri : rt.Getenv "MCPMONGO_MONGO_URI" = ""
  · simp only [huri, if_true, logFatal]
    exact MainRun.noURI huri
  · by_cases hdb : rt.Getenv "MCPMONGO_DATABASE_NAME" = ""
    · simp only [huri, hdb, if_true, if_false, logFatal]
      exact MainRun.noDatabaseName huri hdb
    · simp only [huri, hdb, if_false]
      cases hconn : rt.Connect Context.Background (rt.Getenv "MCPMONGO_MONGO_URI") with
      | error e => exact MainRun.connectFailed huri hdb e hconn
      | ok client =>
        have h2 : 2 * Second = 2000000000 := rfl
        simp only [h2]
        cases hping : rt.Ping client (Context.WithTimeout Context.Background 2000000000) with
        | some e => exact MainRun.pingFailed huri hdb client e hconn hping
        | none =>
          simp only
          cases hserve : rt.ServeStdio
              (registeredServer client (rt.Getenv "MCPMONGO_DATABASE_NAME")) with
          | some e =>
            have hs : (NewMCPServer "MongoDB MCP Server" "0.1.0").AddTool
                "execute_mongo_command" (client.Database (rt.Getenv "MCPMONGO_DATABASE_NAME"))
                = registeredServer client (rt.Getenv "MCPMONGO_DATABASE_NAME") := rfl
            simp only [hs, hserve]
            exact MainRun.serveFailed huri hdb client e hconn hping hserve
          | none =>
            have hs : (NewMCPServer "MongoDB MCP Server" "0.1.0").AddTool
                "execute_mongo_command" (client.Database (rt.Getenv "MCPMONGO_DATABASE_NAME"))
                = registeredServer client (rt.Getenv "MCPMONGO_DATABASE_NAME") := rfl
            simp only [hs, hserve, runDeferred]
            cases hdisc : rt.Disconnect client Context.Background with
            | some e =>
              simp only [logFatal]
              have := MainRun.disconnectFailed huri hdb client e hconn hping hserve hdisc
              simpa [eventsToServe, eventsToPing, eventsToConnect, Client.Database] using this
            | none =>
              have := MainRun.returned huri hdb client hconn hping hserve hdisc
              simpa [eventsToServe, eventsToPing, eventsToConnect, Client.Database] using this

/-! ## The handler: error paths -/

/-- C1. When the argument "command" is absent (a nil map included) or is not a string,
the handler returns the tool-error result with the fixed message and a nil error, and it
makes no driver call at all: neither the parser nor `RunCommand` is invoked. -/
theorem input_error_without_driver_call (drv : Driver) (db : Database) (toolCtx : Context)
    (request : CallToolRequest) (h : commandAbsent request ∨ commandNotString request) :
    (executeMongoCommand drv db toolCtx request).result
        = some (NewToolResultError "Параметр 'command' должен быть строкой.") ∧
      (executeMongoCommand drv db toolCtx request).err = none ∧
      (executeMongoCommand drv db toolCtx request).calls = [] := by
  rw [handler_input_path drv db toolCtx request h]
  exact ⟨rfl, rfl, rfl⟩

/-- C1 at two concrete requests: a nil argument map, and a "command" that is a number. -/
theorem input_error_without_driver_call_witness :
    ((executeMongoCommand sampleDriver sampleDb (Context.Caller 1) (requestWith none)).result
        = some (NewToolResultError "Параметр 'command' должен быть строкой.") ∧
      (executeMongoCommand sampleDriver sampleDb (Context.Caller 1) (requestWith none)).err
        = none ∧
      (executeMongoCommand sampleDriver sampleDb (Context.Caller 1) (requestWith none)).calls
        = []) ∧
    (executeMongoCommand sampleDriver sampleDb (Context.Caller 1)
        (requestWith (some [("command", GoAny.float64 0x4045000000000000)]))).calls = [] :=
  ⟨input_error_without_driver_call sampleDriver sampleDb (Context.Caller 1)
      (requestWith none) (Or.inl trivial),
   (input_error_without_driver_call sampleDriver sampleDb (Context.Caller 1)
      (requestWith (some [("command", GoAny.float64 0x4045000000000000)]))
      (Or.inr ⟨_, _, rfl, rfl, fun _ hs => by cases hs⟩)).2.2⟩

/-- C2. When the argument "command" is a string on which the extended-JSON parse fails
with error `e`, the handler returns the tool-error result whose text is the parse-error
heading followed by the text of `e`, with a nil error; the only driver call is the parse,
so `RunCommand` is never invoked. -/
theorem parse_error_without_database_call (drv : Driver) (db : Database)
    (toolCtx : Context) (request : CallToolRequest) (s : String) (e : GoError)
    (hcmd : commandIs request s)
    (hparse : drv.UnmarshalExtJSON s true = Except.error e) :
    (executeMongoCommand drv db toolCtx request).result
        = some (NewToolResultError ("Ошибка разбора JSON команды: " ++ e.Error)) ∧
      (executeMongoCommand drv db toolCtx request).err = none ∧
      (executeMongoCommand drv db toolCtx request).calls = [Call.UnmarshalExtJSON s true] ∧
      (executeMongoCommand drv db toolCtx request).calls.any Call.isRunCommand = false := by
  rw [handler_parse_path drv db toolCtx request s e hcmd hparse]
  exact ⟨rfl, rfl, rfl, rfl⟩

/-- C2 at the malformed text `{invalid`. -/
theorem parse_error_without_database_call_witness :
    (executeMongoCommand sampleDriver sampleDb (Context.Caller 1)
        (requestWith (some [("command", GoAny.string "\x7binvalid")]))).result
        = some (NewToolResultError "Ошибка разбора JSON команды: invalid JSON input") ∧
      (executeMongoCommand sampleDriver sampleDb (Context.Caller 1)
        (requestWith (some [("command", GoAny.string "\x7binvalid")]))).calls.any
          Call.isRunCommand = false :=
  have h := parse_error_without_database_call sampleDriver sampleDb (Context.Caller 1)
    (requestWith (some [("command", GoAny.string "\x7binvalid")])) "\x7binvalid"
    ⟨"invalid JSON input"⟩ ⟨_, rfl, rfl⟩ rfl
  ⟨h.1, h.2.2.2⟩

/-- C3. When the command text parses to `cmd` and running it (`RunCommand` followed by
`Decode`) gives the error `e`, whatever its cause, the handler returns the tool-error
result whose text is the execution-error heading followed by the text of `e` (so the
text of `e` is a part of it), with a nil error, and `RunCommand` is called exactly once,
on that command. -/
theorem execution_error_reported_once (drv : Driver) (db : Database) (toolCtx : Context)
    (request : CallToolRequest) (s : String) (cmd : D) (e : GoError)
    (hcmd : commandIs request s)
    (hparse : drv.UnmarshalExtJSON s true = Except.ok cmd)
    (hrun : drv.Decode (drv.RunCommand db toolCtx cmd) = Except.error e) :
    (executeMongoCommand drv db toolCtx request).result
        = some (NewToolResultError ("Ошибка выполнения команды MongoDB: " ++ e.Error)) ∧
      e.Error.data <:+: ("Ошибка выполнения команды MongoDB: " ++ e.Error).data ∧
      (executeMongoCommand drv db toolCtx request).err = none ∧
      (executeMongoCommand drv db toolCtx request).calls.countP Call.isRunCommand = 1 ∧
      (executeMongoCommand drv db toolCtx request).calls.filter Call.isRunCommand
        = [Call.RunCommand db toolCtx cmd] := by
  rw [handler_execution_path drv db toolCtx request s cmd e hcmd hparse hrun]
  refine ⟨rfl, ?_, rfl, rfl, rfl⟩
  rw [String.data_append]
  exact (List.suffix_append _ _).isInfix

/-- C3 at a command the server rejects and at a call whose context is canceled. -/
theorem execution_error_reported_once_witness :
    (executeMongoCommand sampleDriver sampleDb (Context.Caller 1)
        (requestWith (some [("command", GoAny.string "\x7b\"nosuch\": 1\x7d")]))).result
        = some (NewToolResultError
            "Ошибка выполнения команды MongoDB: (CommandNotFound) no such command") ∧
    (executeMongoCommand sampleDriver sampleDb (Context.Caller 0)
        (requestWith (some [("command", GoAny.string "\x7b\"ping\": 1\x7d")]))).result
        = some (NewToolResultError "Ошибка выполнения команды MongoDB: context canceled") ∧
    (executeMongoCommand sampleDriver sampleDb (Context.Caller 0)
        (requestWith (some [("command", GoAny.string "\x7b\"ping\": 1\x7d")]))).calls.countP
          Call.isRunCommand = 1 :=
  have h1 := execution_error_reported_once sampleDriver sampleDb (Context.Caller 1)
    (requestWith (some [("command", GoAny.string "\x7b\"nosuch\": 1\x7d")]))
    "\x7b\"nosuch\": 1\x7d" [("nosuch", BsonValue.Int32 1)]
    ⟨"(CommandNotFound) no such command"⟩ ⟨_, rfl, rfl⟩ rfl rfl
  have h2 := execution_error_reported_once sampleDriver sampleDb (Context.Caller 0)
    (requestWith (some [("command", GoAny.string "\x7b\"ping\": 1\x7d")]))
    "\x7b\"ping\": 1\x7d" [("ping", BsonValue.Int32 1)]
    ⟨"context canceled"⟩ ⟨_, rfl, rfl⟩ rfl rfl
  ⟨h1.1, h2.1, h2.2.2.2.1⟩

/-! ## The handler: every outcome, and the success path -/

/-- C4. For every request and every behaviour of the parser, the database call and the
serializer, the handler returns a non-nil tool result together with a nil Go error; and
each per-call failure (input, parse, execution, serialization) is returned as a
tool-error result. -/
theorem every_outcome_is_a_tool_result (drv : Driver) (db : Database) (toolCtx : Context)
    (request : CallToolRequest) :
    (∃ r, (executeMongoCommand drv db toolCtx request).result = some r ∧
      (executeMongoCommand drv db toolCtx request).err = none) ∧
    (PerCallFailure drv db toolCtx request →
      ∃ text, (executeMongoCommand drv db toolCtx request).result
          = some (NewToolResultError text) ∧
        (executeMongoCommand drv db toolCtx request).err = none) := by
  constructor
  · rcases handler_paths drv db toolCtx request with hfail | ⟨text, s, cmd, reply, h⟩
    · obtain ⟨text, hres, herr⟩ := failure_gives_tool_error drv db toolCtx request hfail
      exact ⟨_, hres, herr⟩
    · rw [handler_success_path drv db toolCtx request s cmd reply text h.1 h.2.1 h.2.2.1
        h.2.2.2]
      exact ⟨_, rfl, rfl⟩
  · exact failure_gives_tool_error drv db toolCtx request

/-- C4 at a request whose command the sample server rejects. -/
theorem every_outcome_is_a_tool_result_witness :
    ∃ text, (executeMongoCommand sampleDriver sampleDb (Context.Caller 1)
        (requestWith (some [("command", GoAny.string "\x7b\"nosuch\": 1\x7d")]))).result
          = some (NewToolResultError text) ∧
      (executeMongoCommand sampleDriver sampleDb (Context.Caller 1)
        (requestWith (some [("command", GoAny.string "\x7b\"nosuch\": 1\x7d")]))).err
          = none :=
  (every_outcome_is_a_tool_result sampleDriver sampleDb (Context.Caller 1)
    (requestWith (some [("command", GoAny.string "\x7b\"nosuch\": 1\x7d")]))).2
    (PerCallFailure.execution "\x7b\"nosuch\": 1\x7d" [("nosuch", BsonValue.Int32 1)]
      ⟨"(CommandNotFound) no such command"⟩ ⟨_, rfl, rfl⟩ rfl rfl)

/-- C5. When the argument "command" is a string that parses, the database call gives the
reply `reply`, and the serializer applied to that same `reply` gives `text`, the handler
returns the non-error text result whose text is exactly `text`, with a nil error; and
whenever the handler returns a non-error result, the call succeeded in this sense and the
result is the text result of the serialized reply. -/
theorem success_returns_serialized_reply (drv : Driver) (db : Database) (toolCtx : Context)
    (request : CallToolRequest) :
    (∀ text, Succeeds drv db toolCtx request text →
      (executeMongoCommand drv db toolCtx request).result = some (NewToolResultText text) ∧
      (executeMongoCommand drv db toolCtx request).err = none) ∧
    (∀ r, (executeMongoCommand drv db toolCtx request).result = some r → r.IsError = false →
      ∃ text, Succeeds drv db toolCtx request text ∧ r = NewToolResultText text) := by
  constructor
  · rintro text ⟨s, cmd, reply, hcmd, hparse, hrun, hser⟩
    rw [handler_success_path drv db toolCtx request s cmd reply text hcmd hparse hrun hser]
    exact ⟨rfl, rfl⟩
  · intro r hr hne
    rcases handler_paths drv db toolCtx request with hfail | ⟨text, s, cmd, reply, h⟩
    · obtain ⟨text, hres, _⟩ := failure_gives_tool_error drv db toolCtx request hfail
      rw [hres] at hr
      cases hr
      simp [NewToolResultError] at hne
    · rw [handler_success_path drv db toolCtx request s cmd reply text h.1 h.2.1 h.2.2.1
        h.2.2.2] at hr
      cases hr
      exact ⟨text, ⟨s, cmd, reply, h⟩, rfl⟩

/-- C5 at the request `{"ping": 1}` against the sample server. -/
theorem success_returns_serialized_reply_witness :
    (executeMongoCommand sampleDriver sampleDb (Context.Caller 1)
        (requestWith (some [("command", GoAny.string "\x7b\"ping\": 1\x7d")]))).result
      = some (NewToolResultText "\x7b\"ok\":\x7b\"$numberDouble\":\"1.0\"\x7d\x7d") :=
  ((success_returns_serialized_reply sampleDriver sampleDb (Context.Caller 1)
    (requestWith (some [("command", GoAny.string "\x7b\"ping\": 1\x7d")]))).1
    "\x7b\"ok\":\x7b\"$numberDouble\":\"1.0\"\x7d\x7d"
    ⟨"\x7b\"ping\": 1\x7d", [("ping", BsonValue.Int32 1)],
      ⟨[("ok", BsonValue.Double doubleOne)]⟩, ⟨_, rfl, rfl⟩, rfl, rfl, rfl⟩).1

/-! ## The serializer mode -/

/-- C6 as stated fails. At the request `{"ping": 1}` against the sample server, the one
call to the serializer carries the canonical flag on, not off, and the response text
holds `ok` as a type-tagged wrapper, while the same serializer with the flag off would
have given the plain number. -/
theorem serializer_not_called_relaxed :
    (executeMongoCommand sampleDriver sampleDb (Context.Caller 1) pingRequest).calls.filterMap
        Call.marshalCanonical = [true] ∧
    ¬ (∀ c ∈ (executeMongoCommand sampleDriver sampleDb (Context.Caller 1)
        pingRequest).calls.filterMap Call.marshalCanonical, c = false) ∧
    (executeMongoCommand sampleDriver sampleDb (Context.Caller 1) pingRequest).result
      = some (NewToolResultText "\x7b\"ok\":\x7b\"$numberDouble\":\"1.0\"\x7d\x7d") ∧
    sampleDriver.MarshalExtJSON ⟨[("ok", BsonValue.Double doubleOne)]⟩ false true
      = Except.ok "\x7b\"ok\":1.0\x7d" := by
  refine ⟨rfl, ?_, rfl, rfl⟩
  intro h
  have hmem : true ∈ (executeMongoCommand sampleDriver sampleDb (Context.Caller 1)
      pingRequest).calls.filterMap Call.marshalCanonical := List.mem_singleton.mpr rfl
  exact Bool.noConfusion (h true hmem)

/-- C6, amended. When the command text parses and the database call gives the reply
`reply`, the handler calls the serializer exactly once, on `reply`, with the canonical
flag on and the escape-HTML flag on (canonical mode, not relaxed), after the parse, the
`RunCommand` and the `Decode`; and when that call gives `text`, the response is the text
result `text`. -/
theorem reply_serialized_in_canonical_mode (drv : Driver) (db : Database)
    (toolCtx : Context) (request : CallToolRequest) (s : String) (cmd : D) (reply : M)
    (hcmd : commandIs request s)
    (hparse : drv.UnmarshalExtJSON s true = Except.ok cmd)
    (hrun : drv.Decode (drv.RunCommand db toolCtx cmd) = Except.ok reply) :
    (executeMongoCommand drv db toolCtx request).calls
      = [Call.UnmarshalExtJSON s true, Call.RunCommand db toolCtx cmd,
          Call.Decode (drv.RunCommand db toolCtx cmd),
          Call.MarshalExtJSON reply true true] ∧
    (executeMongoCommand drv db toolCtx request).calls.filterMap Call.marshalCanonical
      = [true] ∧
    (∀ text, drv.MarshalExtJSON reply true true = Except.ok text →
      (executeMongoCommand drv db toolCtx request).result
        = some (NewToolResultText text)) := by
  cases hser : drv.MarshalExtJSON reply true true with
  | error e =>
    rw [handler_serialization_path drv db toolCtx request s cmd reply e hcmd hparse hrun hser]
    exact ⟨rfl, rfl, fun text h => by cases h⟩
  | ok text =>
    rw [handler_success_path drv db toolCtx request s cmd reply text hcmd hparse hrun hser]
    refine ⟨rfl, rfl, fun t h => ?_⟩
    cases h
    rfl

/-- C6, amended, at the request `{"ping": 1}` against the sample server. -/
theorem reply_serialized_in_canonical_mode_witness :
    (executeMongoCommand sampleDriver sampleDb (Context.Caller 2) pingRequest).calls
      = [Call.UnmarshalExtJSON "\x7b\"ping\": 1\x7d" true,
          Call.RunCommand sampleDb (Context.Caller 2) [("ping", BsonValue.Int32 1)],
          Call.Decode ⟨none, [("ok", BsonValue.Double doubleOne)]⟩,
          Call.MarshalExtJSON ⟨[("ok", BsonValue.Double doubleOne)]⟩ true true] :=
  (reply_serialized_in_canonical_mode sampleDriver sampleDb (Context.Caller 2) pingRequest
    "\x7b\"ping\": 1\x7d" [("ping", BsonValue.Int32 1)]
    ⟨[("ok", BsonValue.Double doubleOne)]⟩ ⟨_, rfl, rfl⟩ rfl rfl).1

/-! ## The command as submitted -/

/-- C7. When `main` has registered the tool with the database handle `db` and the command
text of a request parses to the document `cmd`, then `db` is the database named by the
variable MCPMONGO_DATABASE_NAME, and the one `RunCommand` call of the handler is made on
`db`, with the caller's context `toolCtx` itself and with the document `cmd` itself, the
list of key/value pairs exactly as parsed. -/
theorem command_submitted_verbatim (rt : Runtime) (drv : Driver) (toolName : String)
    (db : Database) (toolCtx : Context) (request : CallToolRequest) (s : String) (cmd : D)
    (hreg : Event.AddTool toolName db ∈ (main rt).events)
    (hcmd : commandIs request s)
    (hparse : drv.UnmarshalExtJSON s true = Except.ok cmd) :
    db.name = rt.Getenv "MCPMONGO_DATABASE_NAME" ∧
    (executeMongoCommand drv db toolCtx request).calls.filter Call.isRunCommand
      = [Call.RunCommand db toolCtx cmd] := by
  constructor
  · have hrun := main_run rt
    generalize main rt = p at hrun hreg
    cases hrun with
    | noURI huri => simp at hreg
    | noDatabaseName huri hdb => simp at hreg
    | connectFailed huri hdb e hconn => simp [eventsToConnect] at hreg
    | pingFailed huri hdb client e hconn hping =>
      simp [eventsToPing, eventsToConnect] at hreg
    | serveFailed huri hdb client e hconn hping hserve =>
      simp [eventsToServe, eventsToPing, eventsToConnect] at hreg
      rw [hreg.2]
    | disconnectFailed huri hdb client e hconn hping hserve hdisc =>
      simp [eventsToServe, eventsToPing, eventsToConnect] at hreg
      rw [hreg.2]
    | returned huri hdb client hconn hping hserve hdisc =>
      simp [eventsToServe, eventsToPing, eventsToConnect] at hreg
      rw [hreg.2]
  · cases hdec : drv.Decode (drv.RunCommand db toolCtx cmd) with
    | error e =>
      rw [handler_execution_path drv db toolCtx request s cmd e hcmd hparse hdec]
      rfl
    | ok reply =>
      cases hser : drv.MarshalExtJSON reply true true with
      | error e =>
        rw [handler_serialization_path drv db toolCtx request s cmd reply e hcmd hparse hdec
          hser]
        rfl
      | ok text =>
        rw [handler_success_path drv db toolCtx request s cmd reply text hcmd hparse hdec hser]
        rfl

/-- C7 at the sample runtime and the request `{"ping": 1}`. -/
theorem command_submitted_verbatim_witness :
    sampleDb.name = "test" ∧
    (executeMongoCommand sampleDriver sampleDb (Context.Caller 3)
        pingRequest).calls.filter Call.isRunCommand
      = [Call.RunCommand sampleDb (Context.Caller 3) [("ping", BsonValue.Int32 1)]] :=
  command_submitted_verbatim (sampleRuntime none none none) sampleDriver
    "execute_mongo_command" sampleDb (Context.Caller 3) pingRequest
    "\x7b\"ping\": 1\x7d" [("ping", BsonValue.Int32 1)] (by decide) ⟨_, rfl, rfl⟩ rfl

/-! ## Start-up and shutdown of `main` -/

/-- C8. In every run of `main`: the tool is registered or the transport loop started
only when both required variables were non-empty, the connection succeeded and the
start-up ping succeeded; every ping is made under the context with the 2-second timeout;
when start-up did not succeed the process ends by the fatal exit with code 1, with the
tool never registered and the transport loop never started; and with a required variable
missing no connection attempt is made. -/
theorem serves_only_after_successful_startup (rt : Runtime) :
    ((Registered (main rt) ∨ Served (main rt)) → StartupOk rt) ∧
    (∀ client ctx, Event.Ping client ctx ∈ (main rt).events →
      ctx = Context.WithTimeout Context.Background 2000000000) ∧
    (¬ StartupOk rt →
      (main rt).exitCode = 1 ∧ (main rt).events.getLast? = some (Event.Exit 1) ∧
      ¬ Registered (main rt) ∧ ¬ Served (main rt)) ∧
    ((rt.Getenv "MCPMONGO_MONGO_URI" = "" ∨ rt.Getenv "MCPMONGO_DATABASE_NAME" = "") →
      ¬ ConnectAttempted (main rt)) := by
  have hrun := main_run rt
  generalize main rt = p at hrun
  cases hrun with
  | noURI huri =>
    simp [Registered, Served, ConnectAttempted]
  | noDatabaseName huri hdb =>
    simp [Registered, Served, ConnectAttempted]
  | connectFailed huri hdb e hconn =>
    simp [Registered, Served, eventsToConnect, huri, hdb]
  | pingFailed huri hdb client e hconn hping =>
    simp [Registered, Served, eventsToPing, eventsToConnect, huri, hdb]
  | serveFailed huri hdb client e hconn hping hserve =>
    have hok : StartupOk rt := ⟨huri, hdb, client, hconn, hping⟩
    simp [hok, eventsToServe, eventsToPing, eventsToConnect, huri, hdb]
  | disconnectFailed huri hdb client e hconn hping hserve hdisc =>
    have hok : StartupOk rt := ⟨huri, hdb, client, hconn, hping⟩
    simp [hok, eventsToServe, eventsToPing, eventsToConnect, huri, hdb]
  | returned huri hdb client hconn hping hserve hdisc =>
    have hok : StartupOk rt := ⟨huri, hdb, client, hconn, hping⟩
    simp [hok, eventsToServe, eventsToPing, eventsToConnect, huri, hdb]

/-- C8 at three runs: a run that serves (so start-up succeeded), a run with no variable
set (no connection attempt), and a run whose ping fails (fatal exit, never served). -/
theorem serves_only_after_successful_startup_witness :
    StartupOk (sampleRuntime none none none) ∧
    ¬ ConnectAttempted (main emptyRuntime) ∧
    ((main (sampleRuntime (some ⟨"server selection timeout"⟩) none none)).exitCode = 1 ∧
      (main (sampleRuntime (some ⟨"server selection timeout"⟩) none none)).events.getLast?
        = some (Event.Exit 1) ∧
      ¬ Registered (main (sampleRuntime (some ⟨"server selection timeout"⟩) none none)) ∧
      ¬ Served (main (sampleRuntime (some ⟨"server selection timeout"⟩) none none))) :=
  ⟨(serves_only_after_successful_startup (sampleRuntime none none none)).1
      (Or.inr ⟨registeredServer ⟨"mongodb://localhost:27017"⟩ "test", by decide⟩),
   (serves_only_after_successful_startup emptyRuntime).2.2.2 (Or.inl rfl),
   (serves_only_after_successful_startup
      (sampleRuntime (some ⟨"server selection timeout"⟩) none none)).2.2.1
      (fun h => by
        obtain ⟨_, _, client, _, hping⟩ := h
        exact Option.noConfusion hping)⟩

/-- C9 fails on the code. With the connection made and the start-up ping failing, `main`
ends by the fatal exit right after the ping and `Disconnect` is never called; the same
happens when the transport loop returns an error. `Disconnect` is called only when the
transport loop returns normally. -/
theorem disconnect_skipped_on_fatal_exit :
    (main (sampleRuntime (some ⟨"server selection timeout"⟩) none none)).events
      = [Event.Getenv "MCPMONGO_MONGO_URI", Event.Getenv "MCPMONGO_DATABASE_NAME",
          Event.Getenv "MCPMONGO_SERVER_PORT",
          Event.Connect Context.Background "mongodb://localhost:27017",
          Event.Ping ⟨"mongodb://localhost:27017"⟩
            (Context.WithTimeout Context.Background 2000000000),
          Event.Exit 1] ∧
    (main (sampleRuntime (some ⟨"server selection timeout"⟩) none none)).events.any
      Event.isDisconnect = false ∧
    (main (sampleRuntime none (some ⟨"context canceled"⟩) none)).events
      = [Event.Getenv "MCPMONGO_MONGO_URI", Event.Getenv "MCPMONGO_DATABASE_NAME",
          Event.Getenv "MCPMONGO_SERVER_PORT",
          Event.Connect Context.Background "mongodb://localhost:27017",
          Event.Ping ⟨"mongodb://localhost:27017"⟩
            (Context.WithTimeout Context.Background 2000000000),
          Event.AddTool "execute_mongo_command" ⟨⟨"mongodb://localhost:27017"⟩, "test"⟩,
          Event.ServeStdio (registeredServer ⟨"mongodb://localhost:27017"⟩ "test"),
          Event.Exit 1] ∧
    (main (sampleRuntime none (some ⟨"context canceled"⟩) none)).events.any
      Event.isDisconnect = false ∧
    (main (sampleRuntime none none none)).events
      = [Event.Getenv "MCPMONGO_MONGO_URI", Event.Getenv "MCPMONGO_DATABASE_NAME",
          Event.Getenv "MCPMONGO_SERVER_PORT",
          Event.Connect Context.Background "mongodb://localhost:27017",
          Event.Ping ⟨"mongodb://localhost:27017"⟩
            (Context.WithTimeout Context.Background 2000000000),
          Event.AddTool "execute_mongo_command" ⟨⟨"mongodb://localhost:27017"⟩, "test"⟩,
          Event.ServeStdio (registeredServer ⟨"mongodb://localhost:27017"⟩ "test"),
          Event.cancelPing,
          Event.Disconnect ⟨"mongodb://localhost:27017"⟩ Context.Background] := by
  refine ⟨?_, ?_, ?_, ?_, ?_⟩ <;> decide

/-- In every run of `main`, `Disconnect` is called exactly when start-up succeeded and the
transport loop returned without error. -/
theorem disconnected_iff_loop_returned (rt : Runtime) :
    Disconnected (main rt) ↔
      rt.Getenv "MCPMONGO_MONGO_URI" ≠ "" ∧ rt.Getenv "MCPMONGO_DATABASE_NAME" ≠ "" ∧
      ∃ client,
        rt.Connect Context.Background (rt.Getenv "MCPMONGO_MONGO_URI") = Except.ok client ∧
        rt.Ping client (Context.WithTimeout Context.Background 2000000000) = none ∧
        rt.ServeStdio (registeredServer client (rt.Getenv "MCPMONGO_DATABASE_NAME")) = none := by
  have hrun := main_run rt
  generalize main rt = p at hrun
  cases hrun with
  | noURI huri => simp [Disconnected, huri]
  | noDatabaseName huri hdb => simp [Disconnected, hdb]
  | connectFailed huri hdb e hconn => simp [Disconnected, eventsToConnect, hconn]
  | pingFailed huri hdb client e hconn hping =>
    simp [Disconnected, eventsToPing, eventsToConnect, hconn, hping]
  | serveFailed huri hdb client e hconn hping hserve =>
    simp [Disconnected, eventsToServe, eventsToPing, eventsToConnect, hconn, hserve]
  | disconnectFailed huri hdb client e hconn hping hserve hdisc =>
    simp [Disconnected, eventsToServe, eventsToPing, eventsToConnect, hconn, hserve, hping,
      huri, hdb]
  | returned huri hdb client hconn hping hserve hdisc =>
    simp [Disconnected, eventsToServe, eventsToPing, eventsToConnect, hconn, hserve, hping,
      huri, hdb]

end McpMongo
